import Mathlib

/-!
Verification development for the music-sync repository.

Shallow embedding of the transfer/reconciliation engine:
  - src/spotify.py        (SpotifyClient: web-API client)
  - src/apple_music.py    (AppleMusicClient: web-API client)
  - src/apple_music.py under the repository's src/ package
                          (AppleMusicClient: AppleScript/osascript client)
  - src/transfer.py       (TransferEngine)
  - src/sync.py           (CLI entry point)
  - src/app.py            (GUI orchestration: the run loop and progress math)

External services (the Spotify web API, the Apple Music web API, the local
Music.app automation) are modelled as explicit environments passed in as
function arguments: a catalog answering lookup queries, a per-item step
function that can fail, or a list of server responses.  Machine arithmetic
does not occur in the modelled code (Python integers are unbounded; the
progress fractions are modelled over the rationals).
-/

set_option maxRecDepth 10000

namespace MusicSync

/-- Track record as normalized by both readers: name, artist, album,
optional ISRC canonical code (duration is never consulted by the engine
and is omitted). -/
structure Track where
  name : String
  artist : String
  album : String := ""
  isrc : Option String := none
deriving DecidableEq, Repr

/-- Album record as read from a source: name, artist, optional UPC
canonical code. -/
structure Album where
  name : String
  artist : String
  upc : Option String := none
deriving DecidableEq, Repr

/-- Playlist record as collected from a source (dict with name,
description, tracks). -/
structure Playlist where
  name : String
  description : String
  tracks : List Track
deriving DecidableEq, Repr

/-- One catalog lookup issued by a matcher: either an exact-code query
(the ISRC filter) or a name/artist text query. -/
inductive Query where
  | code (c : String)
  | text (q : String)
deriving DecidableEq, Repr

/-- Destination catalog environment: results of an exact-code lookup
keyed by the code, and results of a text query keyed by the query
string.  Both return the identifier list that the service would return. -/
structure Catalog where
  codeResults : String → List String
  textResults : String → List String

/-- SpotifyClient._search_track (src/spotify.py lines 162-175):
if the track has an ISRC, search by the code query first and return the
first hit; otherwise, or when the code query is empty, issue the
track/artist text query and take its first result if any.  The second
component records the queries issued, in order. -/
def spotifySearchTrack (cat : Catalog) (t : Track) : Option String × List Query :=
  match t.isrc with
  | some c =>
    match cat.codeResults c with
    | tid :: _ => (some tid, [Query.code c])
    | [] =>
      let q := "track:" ++ t.name ++ " artist:" ++ t.artist
      ((cat.textResults q).head?, [Query.code c, Query.text q])
  | none =>
    let q := "track:" ++ t.name ++ " artist:" ++ t.artist
    ((cat.textResults q).head?, [Query.text q])

/-- SpotifyClient._search_album (src/spotify.py lines 177-181): a single
album/artist text query, first result if any; the album's UPC is never
consulted. -/
def spotifySearchAlbum (cat : Catalog) (al : Album) : Option String × List Query :=
  let q := "album:" ++ al.name ++ " artist:" ++ al.artist
  ((cat.textResults q).head?, [Query.text q])

/-- AppleMusicClient._search_track (src/apple_music.py lines 266-283):
code-first via the ISRC filter, then the term search fallback. -/
def appleSearchTrack (cat : Catalog) (t : Track) : Option String × List Query :=
  match t.isrc with
  | some c =>
    match cat.codeResults c with
    | tid :: _ => (some tid, [Query.code c])
    | [] =>
      let q := t.name ++ " " ++ t.artist
      ((cat.textResults q).head?, [Query.code c, Query.text q])
  | none =>
    let q := t.name ++ " " ++ t.artist
    ((cat.textResults q).head?, [Query.text q])

/-- AppleMusicClient._search_album (src/apple_music.py lines 285-292): a
single term search, first result if any; the album's UPC is never
consulted. -/
def appleSearchAlbum (cat : Catalog) (al : Album) : Option String × List Query :=
  let q := al.name ++ " " ++ al.artist
  ((cat.textResults q).head?, [Query.text q])

/-- SpotifyClient.add_liked_songs (src/spotify.py lines 118-128).
For one track the loop body runs _search_track and, on a match,
current_user_saved_tracks_add; both are network calls that can raise.
The environment argument folds the pair into one step:
Except.ok true models a match that was liked, Except.ok false models no
match (track recorded as failed), Except.error models a transport error
raised by either call.  The Python code has no try/except here, so an
error propagates and aborts the whole call. -/
def spotifyAddLikedSongs (step : Track → Except String Bool) :
    List Track → Except String (ℕ × List Track)
  | [] => Except.ok (0, [])
  | t :: ts =>
    match step t with
    | Except.error e => Except.error e
    | Except.ok matched =>
      match spotifyAddLikedSongs step ts with
      | Except.error e => Except.error e
      | Except.ok (a, f) =>
        if matched then Except.ok (a + 1, f) else Except.ok (a, t :: f)

/-- Result of one osascript invocation in the AppleScript client: the
script returns "ok" or "notfound", or osascript exits nonzero and
_run_script raises RuntimeError with a message. -/
inductive ScriptResult where
  | ok
  | notfound
  | err (msg : String)
deriving DecidableEq, Repr

/-- AppleMusicClient.add_liked_songs of the AppleScript client
(src/apple_music.py of the repository's src/ package, lines 140-219).
Each track runs one script (search the local library, set loved on the
first hit); the per-track try/except RuntimeError appends the track to
failed and continues, so no step outcome aborts the loop.  Logging
callbacks do not affect the returned pair and are omitted. -/
def appleScriptAddLikedSongs (step : Track → ScriptResult) :
    List Track → ℕ × List Track
  | [] => (0, [])
  | t :: ts =>
    let r := appleScriptAddLikedSongs step ts
    match step t with
    | ScriptResult.ok => (r.1 + 1, r.2)
    | ScriptResult.notfound => (r.1, t :: r.2)
    | ScriptResult.err _ => (r.1, t :: r.2)

/-- AppleMusicClient.add_liked_songs of the web-API client
(src/apple_music.py lines 213-225).  The loop body per track runs
_search_track and, on a match, the POST to /me/library; both calls can
raise (requests raise_for_status) and there is no try/except, so an
error aborts the whole call.  The step environment folds the pair:
Except.ok true is a match that was added, Except.ok false no match
(track recorded as failed), Except.error a transport error from either
call. -/
def appleAPIAddLikedSongs (step : Track → Except String Bool) :
    List Track → Except String (ℕ × List Track)
  | [] => Except.ok (0, [])
  | t :: ts =>
    match step t with
    | Except.error e => Except.error e
    | Except.ok matched =>
      match appleAPIAddLikedSongs step ts with
      | Except.error e => Except.error e
      | Except.ok (a, f) =>
        if matched then Except.ok (a + 1, f) else Except.ok (a, t :: f)

/-- SpotifyClient.save_albums (src/spotify.py lines 150-160).  The loop
body per album runs _search_album and, on a match,
current_user_saved_albums_add; both are network calls that can raise
and there is no try/except, so a transport error aborts the whole
call.  The step environment folds the pair as in the liked-songs
loops. -/
def spotifySaveAlbums (step : Album → Except String Bool) :
    List Album → Except String (ℕ × List Album)
  | [] => Except.ok (0, [])
  | al :: als =>
    match step al with
    | Except.error e => Except.error e
    | Except.ok matched =>
      match spotifySaveAlbums step als with
      | Except.error e => Except.error e
      | Except.ok (a, f) =>
        if matched then Except.ok (a + 1, f) else Except.ok (a, al :: f)

/-- AppleMusicClient.save_albums of the web-API client
(src/apple_music.py lines 255-264): per album, _search_album then on a
match the POST to /me/library; no try/except, so a transport error
aborts the whole call. -/
def appleAPISaveAlbums (step : Album → Except String Bool) :
    List Album → Except String (ℕ × List Album)
  | [] => Except.ok (0, [])
  | al :: als =>
    match step al with
    | Except.error e => Except.error e
    | Except.ok matched =>
      match appleAPISaveAlbums step als with
      | Except.error e => Except.error e
      | Except.ok (a, f) =>
        if matched then Except.ok (a + 1, f) else Except.ok (a, al :: f)

/-- AppleMusicClient.save_albums of the AppleScript client
(src/apple_music.py of the repository's src/ package, lines 266-306).
Each album runs one script checking the local library; the per-album
try/except RuntimeError appends the album to failed and continues, so
no step outcome aborts the loop.  The "found" script result is the ok
case; logging and progress callbacks do not affect the returned pair
and are omitted. -/
def appleScriptSaveAlbums (step : Album → ScriptResult) :
    List Album → ℕ × List Album
  | [] => (0, [])
  | al :: als =>
    let r := appleScriptSaveAlbums step als
    match step al with
    | ScriptResult.ok => (r.1 + 1, r.2)
    | ScriptResult.notfound => (r.1, al :: r.2)
    | ScriptResult.err _ => (r.1, al :: r.2)

/-- Matching loop shared by both web-API create_playlist implementations
(src/spotify.py lines 135-142, src/apple_music.py lines 238-245): each
track is resolved; hits are collected in order into the identifier list,
misses into the failed list. -/
def matchTracks (resolve : Track → Option String) :
    List Track → List String × List Track
  | [] => ([], [])
  | t :: ts =>
    let r := matchTracks resolve ts
    match resolve t with
    | some tid => (tid :: r.1, r.2)
    | none => (r.1, t :: r.2)

/-- Batching loop of SpotifyClient.create_playlist (src/spotify.py lines
144-146): for i in range(0, len(track_ids), 100) submit the slice
track_ids[i : i + 100].  Stated for a general step of k + 1 so the bound
is positive by construction; the source uses k + 1 = 100. -/
def batches (k : ℕ) (l : List α) : List (List α) :=
  (List.range ((l.length + k) / (k + 1))).map fun i =>
    (l.drop (i * (k + 1))).take (k + 1)

/-- Attributes of the destination playlist at its creation call.
The web-API clients send a description; the AppleScript client's
properties record carries only the name. -/
structure CreatedPlaylist where
  name : String
  description : Option String
deriving DecidableEq, Repr

/-- Observable event of one playlist write: the creation call, one
catalog search for a track, one batched add network call carrying n
identifiers, one in-script duplicate of a matched track (AppleScript
client), or one progress-callback invocation. -/
inductive WriteEv where
  | create (p : CreatedPlaylist)
  | search (name artist : String)
  | addBatch (n : ℕ)
  | duplicate (trackName : String)
  | tick (done total : ℕ)
deriving DecidableEq, Repr

/-- SpotifyClient.create_playlist (src/spotify.py lines 130-148): create
the playlist (description or "" when absent), match every track, then
submit the matched identifiers in batches of 100; returns
(len(track_ids), failed).  This method accepts no progress callback, so
the event trace contains no tick events. -/
def spotifyCreatePlaylist (resolve : Track → Option String)
    (name : String) (desc : Option String) (tracks : List Track) :
    (ℕ × List Track) × List WriteEv :=
  let m := matchTracks resolve tracks
  ((m.1.length, m.2),
    WriteEv.create ⟨name, some (desc.getD "")⟩ ::
      (tracks.map fun t => WriteEv.search t.name t.artist) ++
        (batches 99 m.1).map fun c => WriteEv.addBatch c.length)

/-- AppleMusicClient.create_playlist of the web-API client
(src/apple_music.py lines 227-253): create the playlist (description or
""), match every track, then, when any identifier was matched, submit
all of them in a single POST; returns (len(track_ids), failed).  No
progress callback exists, so no tick events. -/
def appleAPICreatePlaylist (resolve : Track → Option String)
    (name : String) (desc : Option String) (tracks : List Track) :
    (ℕ × List Track) × List WriteEv :=
  let m := matchTracks resolve tracks
  ((m.1.length, m.2),
    WriteEv.create ⟨name, some (desc.getD "")⟩ ::
      (tracks.map fun t => WriteEv.search t.name t.artist) ++
        (if m.1.isEmpty then [] else [WriteEv.addBatch m.1.length]))

/-- Per-track loop of AppleMusicClient.create_playlist of the
AppleScript client (lines 230-259 of that file): one script searches the
local library and duplicates the first hit into the playlist; a
RuntimeError is caught per track and recorded as a failure; then the
progress callback fires with (i + 1, total). -/
def appleScriptCreatePlaylistAux (step : Track → ScriptResult) (total : ℕ) :
    List Track → ℕ → (ℕ × List Track) × List WriteEv
  | [], _ => ((0, []), [])
  | t :: ts, i =>
    let rest := appleScriptCreatePlaylistAux step total ts (i + 1)
    match step t with
    | ScriptResult.ok =>
      ((rest.1.1 + 1, rest.1.2),
        WriteEv.search t.name t.artist :: WriteEv.duplicate t.name ::
          WriteEv.tick (i + 1) total :: rest.2)
    | ScriptResult.notfound =>
      ((rest.1.1, t :: rest.1.2),
        WriteEv.search t.name t.artist :: WriteEv.tick (i + 1) total :: rest.2)
    | ScriptResult.err _ =>
      ((rest.1.1, t :: rest.1.2),
        WriteEv.search t.name t.artist :: WriteEv.tick (i + 1) total :: rest.2)

/-- AppleMusicClient.create_playlist of the AppleScript client (lines
221-264 of that file): make the new user playlist first, with a
properties record carrying only the name (the method takes no
description parameter), then process every track. -/
def appleScriptCreatePlaylist (step : Track → ScriptResult)
    (name : String) (tracks : List Track) : (ℕ × List Track) × List WriteEv :=
  let r := appleScriptCreatePlaylistAux step tracks.length tracks 0
  (r.1, WriteEv.create ⟨name, none⟩ :: r.2)

/-- Playlist write adapter used by the GUI for the Spotify-to-Apple
direction (src/app.py line 336): a lambda that forwards name, tracks and
the progress callback to the AppleScript client and discards the source
playlist's description. -/
def guiWritePlaylistS2A (step : Track → ScriptResult)
    (name : String) (desc : Option String) (tracks : List Track) :
    (ℕ × List Track) × List WriteEv :=
  appleScriptCreatePlaylist step name tracks

/-- Sizes of the batched add network calls occurring in a write trace,
in order. -/
def batchSizes (evs : List WriteEv) : List ℕ :=
  evs.filterMap fun e =>
    match e with
    | WriteEv.addBatch n => some n
    | _ => none

/-- Number of progress-callback invocations in a write trace. -/
def tickCount (evs : List WriteEv) : ℕ :=
  (evs.filter fun e =>
    match e with
    | WriteEv.tick _ _ => true
    | _ => false).length

/-- Whether an event writes a track into the destination playlist (a
batched add call or an in-script duplicate). -/
def isAddEv : WriteEv → Bool
  | WriteEv.addBatch _ => true
  | WriteEv.duplicate _ => true
  | _ => false

/-- Offset-paginated read loop of the web-API AppleMusicClient
(get_liked_songs, src/apple_music.py lines 100-125; get_playlists,
get_saved_albums and _get_playlist_tracks use the same skeleton): request
the slice at the current offset, append its items, stop as soon as a page
is shorter than the requested limit, otherwise advance the offset by the
limit.  The server holds the fixed collection coll and answers each
request with the requested slice.  The fuel argument only bounds the
recursion: the top-level entry passes coll.length, which the loop never
exhausts (each non-final round removes limit ≥ 1 elements), so the
fuel-expired branch mirrors the stop branch and is never reached.
Returns the collected items and the number of requests issued.
The limit is k + 1 so that it is positive by construction; the source
uses k + 1 = 100. -/
def applePaginateGo (k : ℕ) : ℕ → List α → List α × ℕ
  | fuel, coll =>
    let page := coll.take (k + 1)
    if page.length < k + 1 then (page, 1)
    else
      match fuel with
      | 0 => (page, 1)
      | fuel' + 1 =>
        let r := applePaginateGo k fuel' (coll.drop (k + 1))
        (page ++ r.1, r.2 + 1)

/-- Entry point of the offset-paginated read over a fixed server-side
collection. -/
def applePaginate (k : ℕ) (coll : List α) : List α × ℕ :=
  applePaginateGo k coll.length coll

/-- Cursor-paginated read loop of the SpotifyClient (get_liked_songs,
src/spotify.py lines 43-53; get_playlists, get_saved_albums and
_get_playlist_tracks use the same skeleton): consume the current
response's items, then follow results["next"] when present and stop when
it is null.  The client never inspects page sizes.  The environment is
the sequence of server responses, each carrying its items and whether
the response advertises a next page; the head is the response to the
initial request.  Returns the collected items and the number of requests
issued. -/
def spotifyPaginate : List (List α × Bool) → List α × ℕ
  | [] => ([], 0)
  | (page, hasNext) :: rest =>
    if hasNext then
      let r := spotifyPaginate rest
      (page ++ r.1, r.2 + 1)
    else (page, 1)

/-- Task loop of MusicSyncApp._run_sync (src/app.py lines 347-409): the
selected tasks run in order inside one try block; a task is a label
together with the outcome of its read-and-write body, where Except.error
models any exception raised inside the body (for the playlists task this
includes a failing playlist-creation call).  The first exception leaves
the loop for the run-level except handler, which logs the message once;
no later task runs.  Returns the results of the tasks whose bodies
returned, and the logged error message if any. -/
def runSyncTasks : List (String × Except String ℕ) → List (String × ℕ) × Option String
  | [] => ([], none)
  | (label, Except.ok n) :: rest =>
    let r := runSyncTasks rest
    ((label, n) :: r.1, r.2)
  | (_, Except.error e) :: _ => ([], some e)

/-- Observable event of one TransferEngine operation: a source read or a
destination write call. -/
inductive EngineEv where
  | readLiked
  | readPlaylists
  | readAlbums
  | writeLiked
  | createPl (name : String)
  | writeAlbums
deriving DecidableEq, Repr

/-- TransferEngine.transfer_liked_songs (src/transfer.py lines 25-39):
read the source; return if the collection is empty; return after a
message if dry_run; otherwise call the destination's add_liked_songs. -/
def transferLikedSongs (dryRun : Bool) (srcLiked : List Track) : List EngineEv :=
  EngineEv.readLiked ::
    (if srcLiked.isEmpty then []
     else if dryRun then []
     else [EngineEv.writeLiked])

/-- TransferEngine.transfer_playlists (src/transfer.py lines 45-72):
read the source; return if empty; return if dry_run; otherwise call the
destination's create_playlist once per source playlist. -/
def transferPlaylists (dryRun : Bool) (srcPls : List Playlist) : List EngineEv :=
  EngineEv.readPlaylists ::
    (if srcPls.isEmpty then []
     else if dryRun then []
     else srcPls.map fun p => EngineEv.createPl p.name)

/-- TransferEngine.transfer_albums (src/transfer.py lines 78-92): read
the source; return if empty; return if dry_run; otherwise call the
destination's save_albums. -/
def transferAlbums (dryRun : Bool) (srcAlbums : List Album) : List EngineEv :=
  EngineEv.readAlbums ::
    (if srcAlbums.isEmpty then []
     else if dryRun then []
     else [EngineEv.writeAlbums])

/-- Clamp applied by MusicSyncApp._set_progress (src/app.py lines
426-430) to every reported fraction. -/
def clamp01 (q : ℚ) : ℚ := max 0 (min 1 q)

/-- Fraction computed by the progress closure for the liked-songs and
albums tasks (src/app.py lines 388-389):
ti / total_tasks + done / max(total, 1) / total_tasks. -/
def codeSimpleFrac (ti T done total : ℕ) : ℚ :=
  (ti : ℚ) / T + (done : ℚ) / (max total 1 : ℕ) / T

/-- Fraction computed by the pl_progress closure for the playlists task
(src/app.py lines 370-373): ti / total_tasks + pi / pl_count /
total_tasks + done / max(total, 1) / pl_count / total_tasks. -/
def codePlFrac (ti T pi plCount done total : ℕ) : ℚ :=
  (ti : ℚ) / T + (pi : ℚ) / plCount / T
    + (done : ℚ) / (max total 1 : ℕ) / plCount / T

/-- Modelled from the spec (section 4.4 formula): the outer aggregator
formula fraction = task_index / total_selected_tasks +
(intra_task_done / intra_task_total) / total_selected_tasks, stated for
comparison against the closure in the code. -/
def specSimpleFrac (ti T done total : ℕ) : ℚ :=
  (ti : ℚ) / T + ((done : ℚ) / total) / T

/-- Modelled from the spec (section 4.4 formula): the nested playlists
fraction (playlist_index / playlist_count + track_done / track_total /
playlist_count) weighted into the outer formula, stated for comparison
against the closure in the code. -/
def specPlFrac (ti T pi plCount done total : ℕ) : ℚ :=
  (ti : ℚ) / T + ((pi : ℚ) / plCount + (done : ℚ) / total / plCount) / T

/-- Shape of one selected task as far as progress reporting is
concerned: an item count for the liked-songs and albums tasks, or the
list of per-playlist track counts for the playlists task. -/
inductive TaskShape where
  | simple (total : ℕ)
  | playlists (sizes : List ℕ)
deriving DecidableEq, Repr

/-- Raw (pre-clamp) fractions reported while one non-playlist task
writes: the writer invokes the progress callback once per item with
(done, total) for done = 1 .. total. -/
def simpleTicks (T ti total : ℕ) : List ℚ :=
  (List.range total).map fun d => codeSimpleFrac ti T (d + 1) total

/-- Raw fractions reported while the playlists task writes: playlists in
order, and within playlist pi of m tracks one callback per track with
(done, m) for done = 1 .. m. -/
def plTicksAux (T ti plCount : ℕ) : ℕ → List ℕ → List ℚ
  | _, [] => []
  | pi, m :: rest =>
    ((List.range m).map fun d => codePlFrac ti T pi plCount (d + 1) m)
      ++ plTicksAux T ti plCount (pi + 1) rest

/-- Raw fractions reported during one task's write phase. -/
def taskTicks (T ti : ℕ) : TaskShape → List ℚ
  | TaskShape.simple total => simpleTicks T ti total
  | TaskShape.playlists sizes => plTicksAux T ti sizes.length 0 sizes

/-- Raw fractions reported from task index ti onwards: each task's
per-item ticks followed by the end-of-task report (ti + 1) /
total_tasks (src/app.py line 397). -/
def rawTraceAux (T : ℕ) : ℕ → List TaskShape → List ℚ
  | _, [] => []
  | ti, s :: rest =>
    taskTicks T ti s ++ ((ti + 1 : ℕ) : ℚ) / T :: rawTraceAux T (ti + 1) rest

/-- Every fraction reported to _set_progress over one run, in order: the
initial 0 from _start_sync (line 325), the per-item and end-of-task
reports of the loop, and the final 1.0 (line 399); each is clamped by
_set_progress. -/
def runTrace (tasks : List TaskShape) : List ℚ :=
  ((0 : ℚ) :: rawTraceAux tasks.length 0 tasks ++ [1]).map clamp01

/-! Concrete inputs used by witnesses and counterexamples. -/

/-- Concrete track without a canonical code. -/
def tW : Track := ⟨"a", "b", "", none⟩

/-- Concrete second track without a canonical code. -/
def tB : Track := ⟨"b", "b", "", none⟩

/-- Environment in which every track matches and is written. -/
def stepOkW : Track → Except String Bool := fun _ => Except.ok true

/-- Environment in which every album matches and is saved. -/
def stepAlbumOkW : Album → Except String Bool := fun _ => Except.ok true

/-- Environment raising a transport error for the track named "a" and
matching every other track. -/
def stepErrW : Track → Except String Bool :=
  fun t => if t.name = "a" then Except.error "timeout" else Except.ok true

/-- Script environment failing with a RuntimeError for the track named
"a" and matching every other track. -/
def scriptErrW : Track → ScriptResult :=
  fun t => if t.name = "a" then ScriptResult.err "osascript failed" else ScriptResult.ok

/-- Script environment in which no track is found in the local library. -/
def scriptNotFoundW : Track → ScriptResult := fun _ => ScriptResult.notfound

/-- Concrete album carrying a canonical code. -/
def albumW : Album := ⟨"X", "Y", some "0042"⟩

/-- Catalog in which the exact-code lookup for "0042" returns a
candidate and every text query returns nothing. -/
def catW : Catalog :=
  ⟨fun c => if c = "0042" then ["a1"] else [], fun _ => []⟩

/-- Concrete track carrying the canonical code "QQ". -/
def tCodeW : Track := ⟨"n", "ar", "", some "QQ"⟩

/-- Catalog in which the exact-code lookup for "QQ" returns a candidate
and every text query also returns a (different) candidate. -/
def catCodeW : Catalog :=
  ⟨fun c => if c = "QQ" then ["t1"] else [], fun _ => ["z9"]⟩

/-- Resolver matching every track to the same identifier. -/
def resolveAllW : Track → Option String := fun _ => some "i"

/-- Resolver matching no track. -/
def resolveNoneW : Track → Option String := fun _ => none

/-- Playlist of 150 tracks, all of which will match. -/
def tracks150 : List Track := List.replicate 150 tW

/-- Concrete playlist for the dry-run witness. -/
def plW : Playlist := ⟨"p", "d", [tW]⟩

/-- Concrete album without a code for the dry-run witness. -/
def albW : Album := ⟨"A", "B", none⟩

/-- Server responses for a Spotify liked-songs collection of exactly 100
items read with the requested page size 50: two full pages, and the
second response carries no next cursor, exactly as the service responds
at offset 50 of 100. -/
def spotifyPagesW : List (List ℕ × Bool) :=
  [(List.replicate 50 0, true), (List.replicate 50 0, false)]

end MusicSync

namespace MusicSync

/-! Helper lemmas. -/

/-- Conservation of the matching loop shared by the web-API
create_playlist implementations. -/
theorem matchTracks_conservation (resolve : Track → Option String) :
    ∀ ts : List Track,
      (matchTracks resolve ts).1.length + (matchTracks resolve ts).2.length
        = ts.length := by
  intro ts
  induction ts with
  | nil => rfl
  | cons t ts ih =>
    cases h : resolve t <;> simp [matchTracks, h] <;> omega

/-- When no track resolves, the matching loop matches nothing and fails
everything, in order. -/
theorem matchTracks_all_none (resolve : Track → Option String) :
    ∀ ts : List Track, (∀ t ∈ ts, resolve t = none) →
      matchTracks resolve ts = ([], ts) := by
  intro ts
  induction ts with
  | nil => intro _; rfl
  | cons t ts ih =>
    intro h
    have ht := h t (by simp)
    have hrest := ih fun x hx => h x (by simp [hx])
    simp [matchTracks, ht, hrest]

/-- Conservation of the AppleScript liked-songs loop: every step outcome
increments added or appends to failed. -/
theorem appleScriptAdd_conservation (step : Track → ScriptResult) :
    ∀ ts : List Track,
      (appleScriptAddLikedSongs step ts).1
        + (appleScriptAddLikedSongs step ts).2.length = ts.length := by
  intro ts
  induction ts with
  | nil => rfl
  | cons t ts ih =>
    cases h : step t <;> simp [appleScriptAddLikedSongs, h] <;> omega

/-- Conservation of the Spotify liked-songs loop on every run that
returns (raises no transport error). -/
theorem spotifyAdd_ok_conservation (step : Track → Except String Bool) :
    ∀ (ts : List Track) (a : ℕ) (f : List Track),
      spotifyAddLikedSongs step ts = Except.ok (a, f) →
        a + f.length = ts.length := by
  intro ts
  induction ts with
  | nil =>
    intro a f h
    simp [spotifyAddLikedSongs] at h
    obtain ⟨rfl, rfl⟩ := h
    rfl
  | cons t ts ih =>
    intro a f h
    rw [spotifyAddLikedSongs] at h
    cases hs : step t with
    | error e => rw [hs] at h; cases h
    | ok matched =>
      rw [hs] at h
      cases hr : spotifyAddLikedSongs step ts with
      | error e => rw [hr] at h; cases h
      | ok p =>
        obtain ⟨a', f'⟩ := p
        rw [hr] at h
        have hc := ih a' f' hr
        cases matched with
        | true =>
          simp at h
          obtain ⟨ha, hf⟩ := h
          subst ha; subst hf
          simp; omega
        | false =>
          simp at h
          obtain ⟨ha, hf⟩ := h
          subst ha; subst hf
          simp; omega

/-- Conservation of the AppleScript save-albums loop: every step
outcome increments added or appends to failed. -/
theorem appleScriptSave_conservation (step : Album → ScriptResult) :
    ∀ als : List Album,
      (appleScriptSaveAlbums step als).1
        + (appleScriptSaveAlbums step als).2.length = als.length := by
  intro als
  induction als with
  | nil => rfl
  | cons al als ih =>
    cases h : step al <;> simp [appleScriptSaveAlbums, h] <;> omega

/-- Conservation of the web-API Apple liked-songs loop on every run
that returns (raises no transport error). -/
theorem appleAPIAdd_ok_conservation (step : Track → Except String Bool) :
    ∀ (ts : List Track) (a : ℕ) (f : List Track),
      appleAPIAddLikedSongs step ts = Except.ok (a, f) →
        a + f.length = ts.length := by
  intro ts
  induction ts with
  | nil =>
    intro a f h
    simp [appleAPIAddLikedSongs] at h
    obtain ⟨rfl, rfl⟩ := h
    rfl
  | cons t ts ih =>
    intro a f h
    rw [appleAPIAddLikedSongs] at h
    cases hs : step t with
    | error e => rw [hs] at h; cases h
    | ok matched =>
      rw [hs] at h
      cases hr : appleAPIAddLikedSongs step ts with
      | error e => rw [hr] at h; cases h
      | ok p =>
        obtain ⟨a', f'⟩ := p
        rw [hr] at h
        have hc := ih a' f' hr
        cases matched with
        | true =>
          simp at h
          obtain ⟨ha, hf⟩ := h
          subst ha; subst hf
          simp; omega
        | false =>
          simp at h
          obtain ⟨ha, hf⟩ := h
          subst ha; subst hf
          simp; omega

/-- Conservation of the Spotify save-albums loop on every run that
returns (raises no transport error). -/
theorem spotifySave_ok_conservation (step : Album → Except String Bool) :
    ∀ (als : List Album) (a : ℕ) (f : List Album),
      spotifySaveAlbums step als = Except.ok (a, f) →
        a + f.length = als.length := by
  intro als
  induction als with
  | nil =>
    intro a f h
    simp [spotifySaveAlbums] at h
    obtain ⟨rfl, rfl⟩ := h
    rfl
  | cons al als ih =>
    intro a f h
    rw [spotifySaveAlbums] at h
    cases hs : step al with
    | error e => rw [hs] at h; cases h
    | ok matched =>
      rw [hs] at h
      cases hr : spotifySaveAlbums step als with
      | error e => rw [hr] at h; cases h
      | ok p =>
        obtain ⟨a', f'⟩ := p
        rw [hr] at h
        have hc := ih a' f' hr
        cases matched with
        | true =>
          simp at h
          obtain ⟨ha, hf⟩ := h
          subst ha; subst hf
          simp; omega
        | false =>
          simp at h
          obtain ⟨ha, hf⟩ := h
          subst ha; subst hf
          simp; omega

/-- Conservation of the web-API Apple save-albums loop on every run
that returns (raises no transport error). -/
theorem appleAPISave_ok_conservation (step : Album → Except String Bool) :
    ∀ (als : List Album) (a : ℕ) (f : List Album),
      appleAPISaveAlbums step als = Except.ok (a, f) →
        a + f.length = als.length := by
  intro als
  induction als with
  | nil =>
    intro a f h
    simp [appleAPISaveAlbums] at h
    obtain ⟨rfl, rfl⟩ := h
    rfl
  | cons al als ih =>
    intro a f h
    rw [appleAPISaveAlbums] at h
    cases hs : step al with
    | error e => rw [hs] at h; cases h
    | ok matched =>
      rw [hs] at h
      cases hr : appleAPISaveAlbums step als with
      | error e => rw [hr] at h; cases h
      | ok p =>
        obtain ⟨a', f'⟩ := p
        rw [hr] at h
        have hc := ih a' f' hr
        cases matched with
        | true =>
          simp at h
          obtain ⟨ha, hf⟩ := h
          subst ha; subst hf
          simp; omega
        | false =>
          simp at h
          obtain ⟨ha, hf⟩ := h
          subst ha; subst hf
          simp; omega

/-- Conservation of the AppleScript playlist-population loop. -/
theorem appleScriptCreateAux_conservation (step : Track → ScriptResult)
    (total : ℕ) :
    ∀ (ts : List Track) (i : ℕ),
      (appleScriptCreatePlaylistAux step total ts i).1.1
        + (appleScriptCreatePlaylistAux step total ts i).1.2.length
        = ts.length := by
  intro ts
  induction ts with
  | nil => intro i; rfl
  | cons t ts ih =>
    intro i
    have hrest := ih (i + 1)
    cases h : step t <;>
      simp [appleScriptCreatePlaylistAux, h] <;> omega

/-- When no script run returns "ok", the AppleScript playlist loop adds
no track: no duplicate event appears and the added count is zero. -/
theorem appleScriptCreateAux_all_fail (step : Track → ScriptResult)
    (total : ℕ) :
    ∀ (ts : List Track) (i : ℕ), (∀ t ∈ ts, step t ≠ ScriptResult.ok) →
      ((appleScriptCreatePlaylistAux step total ts i).2.filter isAddEv = []
        ∧ (appleScriptCreatePlaylistAux step total ts i).1.1 = 0) := by
  intro ts
  induction ts with
  | nil => intro i _; exact ⟨rfl, rfl⟩
  | cons t ts ih =>
    intro i h
    have ht := h t (by simp)
    have hrest := ih (i + 1) fun x hx => h x (by simp [hx])
    cases hs : step t with
    | ok => exact absurd hs ht
    | notfound => simpa [appleScriptCreatePlaylistAux, hs, isAddEv] using hrest
    | err m => simpa [appleScriptCreatePlaylistAux, hs, isAddEv] using hrest

/-- A batching pass over the empty identifier list issues no call. -/
theorem batches_nil (k : ℕ) : batches k ([] : List String) = [] := by
  simp [batches, Nat.div_eq_of_lt (Nat.lt_succ_of_le (Nat.le_refl k))]

/-- When every track resolves, the matching loop matches everything and
fails nothing. -/
theorem matchTracks_all_some (resolve : Track → Option String) :
    ∀ ts : List Track, (∀ t ∈ ts, (resolve t).isSome) →
      ((matchTracks resolve ts).1.length = ts.length
        ∧ (matchTracks resolve ts).2 = []) := by
  intro ts
  induction ts with
  | nil => intro _; exact ⟨rfl, rfl⟩
  | cons t ts ih =>
    intro h
    have ht := h t (by simp)
    have hrest := ih fun x hx => h x (by simp [hx])
    cases hr : resolve t with
    | none => rw [hr] at ht; cases ht
    | some tid => simp [matchTracks, hr, hrest.1, hrest.2]

/-- A filterMap that always misses produces nothing. -/
theorem filterMap_const_none (l : List α) :
    l.filterMap (fun _ => (none : Option β)) = [] := by
  induction l with
  | nil => rfl
  | cons a l ih => simp [List.filterMap_cons, ih]

/-- A filterMap that always hits is a map. -/
theorem filterMap_some_comp (f : α → β) (l : List α) :
    l.filterMap (fun a => some (f a)) = l.map f := by
  induction l with
  | nil => rfl
  | cons a l ih => simp [List.filterMap_cons, ih]

/-- The batched add calls of SpotifyClient.create_playlist have the
sizes of the slices track_ids[i : i + 100], and the method invokes no
progress callback. -/
theorem spotifyCreate_trace_sizes (resolve : Track → Option String)
    (name : String) (desc : Option String) (ts : List Track) :
    batchSizes (spotifyCreatePlaylist resolve name desc ts).2
      = (List.range (((matchTracks resolve ts).1.length + 99) / 100)).map
          (fun i => min 100 ((matchTracks resolve ts).1.length - i * 100))
      ∧ tickCount (spotifyCreatePlaylist resolve name desc ts).2 = 0 := by
  constructor
  · simp [spotifyCreatePlaylist, batchSizes, batches, List.filterMap_append,
      List.filterMap_map, Function.comp_def, filterMap_const_none,
      filterMap_some_comp]
  · simp [spotifyCreatePlaylist, tickCount, List.filter_append, List.filter_map,
      Function.comp_def]

/-- The web-API AppleMusicClient.create_playlist submits all matched
identifiers in one call (none when nothing matched) and invokes no
progress callback. -/
theorem appleAPICreate_trace_sizes (resolve : Track → Option String)
    (name : String) (desc : Option String) (ts : List Track) :
    batchSizes (appleAPICreatePlaylist resolve name desc ts).2
      = (if (matchTracks resolve ts).1.isEmpty then []
         else [(matchTracks resolve ts).1.length])
      ∧ tickCount (appleAPICreatePlaylist resolve name desc ts).2 = 0 := by
  constructor
  · cases h : (matchTracks resolve ts).1.isEmpty <;>
      simp [appleAPICreatePlaylist, batchSizes, h, List.filterMap_append,
        List.filterMap_map, Function.comp_def]
  · cases h : (matchTracks resolve ts).1.isEmpty <;>
      simp [appleAPICreatePlaylist, tickCount, h, List.filter_append,
        List.filter_map, Function.comp_def]

/-- The offset-paginated loop collects the entire server-side
collection. -/
theorem applePaginateGo_collects (k : ℕ) :
    ∀ (fuel : ℕ) (coll : List α), coll.length ≤ fuel →
      (applePaginateGo k fuel coll).1 = coll := by
  intro fuel
  induction fuel with
  | zero =>
    intro coll hc
    have hnil : coll = [] := List.length_eq_zero.mp (Nat.le_zero.mp hc)
    subst hnil
    simp [applePaginateGo]
  | succ fuel ih =>
    intro coll hc
    rw [applePaginateGo]
    by_cases hshort : (coll.take (k + 1)).length < k + 1
    · rw [if_pos hshort]
      have : coll.length < k + 1 := by
        simpa [List.length_take] using hshort
      exact List.take_of_length_le (Nat.le_of_lt this)
    · rw [if_neg hshort]
      have hlen : k + 1 ≤ coll.length := by
        rcases Nat.lt_or_ge coll.length (k + 1) with h | h
        · exact absurd (by simpa [List.length_take] using h) hshort
        · exact h
      have hrec := ih (coll.drop (k + 1)) (by simp [List.length_drop]; omega)
      simp only [hrec, List.take_append_drop]

/-- When the collection size is an exact multiple of the positive page
size k + 1, the offset-paginated loop issues size / (k + 1) + 1
requests: every full page plus one extra request answered by an empty
page. -/
theorem applePaginateGo_requests (k : ℕ) :
    ∀ (fuel : ℕ) (coll : List α), coll.length ≤ fuel →
      coll.length % (k + 1) = 0 →
      (applePaginateGo k fuel coll).2 = coll.length / (k + 1) + 1 := by
  intro fuel
  induction fuel with
  | zero =>
    intro coll hc _
    have hnil : coll = [] := List.length_eq_zero.mp (Nat.le_zero.mp hc)
    subst hnil
    simp [applePaginateGo]
  | succ fuel ih =>
    intro coll hc hmod
    rw [applePaginateGo]
    by_cases hshort : (coll.take (k + 1)).length < k + 1
    · rw [if_pos hshort]
      have hlt : coll.length < k + 1 := by
        simpa [List.length_take] using hshort
      have hz : coll.length = 0 := by
        have := Nat.mod_eq_of_lt hlt
        omega
      rw [hz]
      simp
    · rw [if_neg hshort]
      have hlen : k + 1 ≤ coll.length := by
        rcases Nat.lt_or_ge coll.length (k + 1) with h | h
        · exact absurd (by simpa [List.length_take] using h) hshort
        · exact h
      have hdvd : (k + 1) ∣ coll.length := Nat.dvd_of_mod_eq_zero hmod
      have hdvd' : (k + 1) ∣ (coll.length - (k + 1)) :=
        Nat.dvd_sub' hdvd (Nat.dvd_refl (k + 1))
      have hmod' : (coll.drop (k + 1)).length % (k + 1) = 0 := by
        rw [List.length_drop]
        exact Nat.mod_eq_zero_of_dvd hdvd'
      have hrec := ih (coll.drop (k + 1)) (by simp [List.length_drop]; omega) hmod'
      simp only [hrec, List.length_drop]
      rw [Nat.div_eq_sub_div (Nat.succ_pos k) hlen]

/-! Claim theorems. -/

/-- C1: for every write operation of every modelled destination client
— add_liked_songs (Spotify, web-API Apple, AppleScript Apple),
create_playlist (all three clients) and save_albums (all three
clients), on each run that returns a pair — the returned pair satisfies
added + len(failed) = total, the number of items handed to the call. -/
theorem C1_conservation :
    (∀ (step : Track → Except String Bool) (ts : List Track) (a : ℕ)
        (f : List Track),
        spotifyAddLikedSongs step ts = Except.ok (a, f) →
          a + f.length = ts.length) ∧
    (∀ (step : Track → ScriptResult) (ts : List Track),
        (appleScriptAddLikedSongs step ts).1
          + (appleScriptAddLikedSongs step ts).2.length = ts.length) ∧
    (∀ (resolve : Track → Option String) (name : String) (desc : Option String)
        (ts : List Track),
        (appleAPICreatePlaylist resolve name desc ts).1.1
          + (appleAPICreatePlaylist resolve name desc ts).1.2.length
          = ts.length) ∧
    (∀ (resolve : Track → Option String) (name : String) (desc : Option String)
        (ts : List Track),
        (spotifyCreatePlaylist resolve name desc ts).1.1
          + (spotifyCreatePlaylist resolve name desc ts).1.2.length
          = ts.length) ∧
    (∀ (step : Track → ScriptResult) (name : String) (ts : List Track),
        (appleScriptCreatePlaylist step name ts).1.1
          + (appleScriptCreatePlaylist step name ts).1.2.length = ts.length) ∧
    (∀ (step : Track → Except String Bool) (ts : List Track) (a : ℕ)
        (f : List Track),
        appleAPIAddLikedSongs step ts = Except.ok (a, f) →
          a + f.length = ts.length) ∧
    (∀ (step : Album → Except String Bool) (als : List Album) (a : ℕ)
        (f : List Album),
        spotifySaveAlbums step als = Except.ok (a, f) →
          a + f.length = als.length) ∧
    (∀ (step : Album → Except String Bool) (als : List Album) (a : ℕ)
        (f : List Album),
        appleAPISaveAlbums step als = Except.ok (a, f) →
          a + f.length = als.length) ∧
    (∀ (step : Album → ScriptResult) (als : List Album),
        (appleScriptSaveAlbums step als).1
          + (appleScriptSaveAlbums step als).2.length = als.length) := by
  refine ⟨spotifyAdd_ok_conservation, appleScriptAdd_conservation, ?_, ?_, ?_,
    appleAPIAdd_ok_conservation, spotifySave_ok_conservation,
    appleAPISave_ok_conservation, appleScriptSave_conservation⟩
  · intro resolve name desc ts
    simpa [appleAPICreatePlaylist] using matchTracks_conservation resolve ts
  · intro resolve name desc ts
    simpa [spotifyCreatePlaylist] using matchTracks_conservation resolve ts
  · intro step name ts
    simpa [appleScriptCreatePlaylist]
      using appleScriptCreateAux_conservation step ts.length ts 0

/-- C1 witness: a concrete two-track liked-songs batch in which both
tracks match, and a concrete one-album save_albums batch in which the
album matches. -/
theorem C1_conservation_witness :
    spotifyAddLikedSongs stepOkW [tW, tB] = Except.ok (2, [])
      ∧ 2 + ([] : List Track).length = [tW, tB].length
      ∧ spotifySaveAlbums stepAlbumOkW [albW] = Except.ok (1, [])
      ∧ 1 + ([] : List Album).length = [albW].length :=
  ⟨rfl, C1_conservation.1 stepOkW [tW, tB] 2 [] rfl, rfl,
    C1_conservation.2.2.2.2.2.2.1 stepAlbumOkW [albW] 1 [] rfl⟩

/-- C2 counterexample: the claim quantifies over tracks and albums, but
the album resolvers never issue a code query.  For a concrete album
carrying the UPC "0042", in a catalog whose exact-code lookup for
"0042" returns the candidate "a1", SpotifyClient._search_album issues
only the text-fallback query, no code query, and misses. -/
theorem C2_counterexample :
    albumW.upc = some "0042" ∧
    catW.codeResults "0042" = ["a1"] ∧
    (spotifySearchAlbum catW albumW).2 = [Query.text "album:X artist:Y"] ∧
    (∀ c, Query.code c ∉ (spotifySearchAlbum catW albumW).2) ∧
    (spotifySearchAlbum catW albumW).1 = none := by
  refine ⟨rfl, rfl, rfl, ?_, rfl⟩
  intro c h
  simp [spotifySearchAlbum, catW] at h

/-- C2 amended: for every track with a canonical code whose exact-code
lookup returns at least one candidate, both track resolvers return the
first candidate having issued only the code query; for every track
without a code, and for every album whether or not it carries a code,
the resolvers issue exactly one text query and never a code query,
taking the first text result if any. -/
theorem C2_resolve_amended :
    (∀ (cat : Catalog) (t : Track) (c tid : String) (rest : List String),
        t.isrc = some c → cat.codeResults c = tid :: rest →
          spotifySearchTrack cat t = (some tid, [Query.code c])) ∧
    (∀ (cat : Catalog) (t : Track) (c tid : String) (rest : List String),
        t.isrc = some c → cat.codeResults c = tid :: rest →
          appleSearchTrack cat t = (some tid, [Query.code c])) ∧
    (∀ (cat : Catalog) (t : Track), t.isrc = none →
        spotifySearchTrack cat t
          = ((cat.textResults ("track:" ++ t.name ++ " artist:" ++ t.artist)).head?,
             [Query.text ("track:" ++ t.name ++ " artist:" ++ t.artist)])) ∧
    (∀ (cat : Catalog) (t : Track), t.isrc = none →
        appleSearchTrack cat t
          = ((cat.textResults (t.name ++ " " ++ t.artist)).head?,
             [Query.text (t.name ++ " " ++ t.artist)])) ∧
    (∀ (cat : Catalog) (al : Album),
        spotifySearchAlbum cat al
          = ((cat.textResults ("album:" ++ al.name ++ " artist:" ++ al.artist)).head?,
             [Query.text ("album:" ++ al.name ++ " artist:" ++ al.artist)])) ∧
    (∀ (cat : Catalog) (al : Album),
        appleSearchAlbum cat al
          = ((cat.textResults (al.name ++ " " ++ al.artist)).head?,
             [Query.text (al.name ++ " " ++ al.artist)])) := by
  refine ⟨?_, ?_, ?_, ?_, fun _ _ => rfl, fun _ _ => rfl⟩
  · intro cat t c tid rest h1 h2
    simp [spotifySearchTrack, h1, h2]
  · intro cat t c tid rest h1 h2
    simp [appleSearchTrack, h1, h2]
  · intro cat t h1
    simp [spotifySearchTrack, h1]
  · intro cat t h1
    simp [appleSearchTrack, h1]

/-- C2 witness: a track carrying the code "QQ" resolves through the
code query alone even though the text query would also answer. -/
theorem C2_resolve_amended_witness :
    tCodeW.isrc = some "QQ" ∧ catCodeW.codeResults "QQ" = ["t1"] ∧
    spotifySearchTrack catCodeW tCodeW = (some "t1", [Query.code "QQ"]) :=
  ⟨rfl, rfl, C2_resolve_amended.1 catCodeW tCodeW "QQ" "t1" [] rfl rfl⟩

/-- C3 counterexample: when the playlists task raises (playlist creation
rejected) and the albums task is selected after it, the run-level
handler receives the exception, no albums result is produced, and the
albums task does not execute, contradicting the claim that every
subsequently selected task still runs to completion. -/
theorem C3_counterexample :
    runSyncTasks [("playlists", Except.error "playlist creation rejected"),
        ("albums", Except.ok 3)]
      = ([], some "playlist creation rejected") ∧
    (∀ n, ("albums", n) ∉
        (runSyncTasks [("playlists", Except.error "playlist creation rejected"),
          ("albums", Except.ok 3)]).1) := by
  refine ⟨rfl, ?_⟩
  intro n h
  simp [runSyncTasks] at h

/-- C3 amended: a fatal error inside any task's body (in particular a
failing playlist-creation call) escapes the task loop of _run_sync to
the run-level handler: the tasks before it complete, the error is
reported once, and no subsequently selected task executes at all (the
same holds in the CLI, src/sync.py, where the exception is not caught
and terminates the program before the remaining transfer calls). -/
theorem C3_fatal_amended :
    ∀ (pre : List (String × ℕ)) (l e : String)
      (rest : List (String × Except String ℕ)),
      runSyncTasks
          ((pre.map fun p => (p.1, Except.ok p.2)) ++ (l, Except.error e) :: rest)
        = (pre, some e) := by
  intro pre l e rest
  induction pre with
  | nil => rfl
  | cons p pre ih => simp [runSyncTasks, ih]

/-- C4 counterexample: in SpotifyClient.add_liked_songs there is no
per-item try/except, so a transport error while matching the first of
two tracks aborts the whole batch instead of recording the item as
failed and continuing. -/
theorem C4_counterexample :
    spotifyAddLikedSongs stepErrW [tW, tB] = Except.error "timeout" ∧
    (∀ (a : ℕ) (f : List Track),
        spotifyAddLikedSongs stepErrW [tW, tB] ≠ Except.ok (a, f)) := by
  have h1 : spotifyAddLikedSongs stepErrW [tW, tB] = Except.error "timeout" := rfl
  refine ⟨h1, ?_⟩
  intro a f h
  rw [h1] at h
  exact Except.noConfusion h

/-- C4 amended: only the AppleScript client catches per-item errors at
the innermost scope — there a RuntimeError during one item appends that
item to failed and the remaining items are still processed — while in
the SpotifyClient a transport error raised while matching or writing a
single item propagates and aborts the batch. -/
theorem C4_item_error_amended :
    (∀ (step : Track → ScriptResult) (t : Track) (ts : List Track) (m : String),
        step t = ScriptResult.err m →
          appleScriptAddLikedSongs step (t :: ts)
            = ((appleScriptAddLikedSongs step ts).1,
               t :: (appleScriptAddLikedSongs step ts).2)) ∧
    (∀ (step : Track → Except String Bool) (t : Track) (ts : List Track)
        (e : String),
        step t = Except.error e →
          spotifyAddLikedSongs step (t :: ts) = Except.error e) := by
  constructor
  · intro step t ts m h
    simp [appleScriptAddLikedSongs, h]
  · intro step t ts e h
    rw [spotifyAddLikedSongs, h]

/-- C4 witness: a failing script on the first track leaves the second
track's processing intact in the AppleScript client. -/
theorem C4_item_error_amended_witness :
    scriptErrW tW = ScriptResult.err "osascript failed" ∧
    appleScriptAddLikedSongs scriptErrW [tW, tB]
      = ((appleScriptAddLikedSongs scriptErrW [tB]).1,
         tW :: (appleScriptAddLikedSongs scriptErrW [tB]).2) :=
  ⟨rfl, C4_item_error_amended.1 scriptErrW tW [tB] "osascript failed" rfl⟩

/-- C8 counterexample: the GUI's Spotify-to-Apple playlist write path
creates the destination playlist through the AppleScript client, whose
creation call carries only the name; a source playlist with a non-empty
description is created without it, contradicting "same name and
description". -/
theorem C8_counterexample :
    (guiWritePlaylistS2A scriptNotFoundW "Road Trip" (some "for long drives") []).2
      = [WriteEv.create ⟨"Road Trip", none⟩] ∧
    (⟨"Road Trip", none⟩ : CreatedPlaylist).description ≠ some "for long drives" :=
  ⟨rfl, by simp⟩

/-- C8 amended: for every source playlist an empty destination playlist
is created before any track is matched or added — the web-API clients
create it with the same name and description, the AppleScript client
with the name only — and creation is unconditional with respect to
track outcomes: when every track fails to match, the playlist is still
created and zero track-add calls are issued. -/
theorem C8_create_amended :
    (∀ (resolve : Track → Option String) (name : String) (desc : Option String)
        (ts : List Track), ∃ rest,
        (appleAPICreatePlaylist resolve name desc ts).2
          = WriteEv.create ⟨name, some (desc.getD "")⟩ :: rest) ∧
    (∀ (resolve : Track → Option String) (name : String) (desc : Option String)
        (ts : List Track), ∃ rest,
        (spotifyCreatePlaylist resolve name desc ts).2
          = WriteEv.create ⟨name, some (desc.getD "")⟩ :: rest) ∧
    (∀ (step : Track → ScriptResult) (name : String) (ts : List Track), ∃ rest,
        (appleScriptCreatePlaylist step name ts).2
          = WriteEv.create ⟨name, none⟩ :: rest) ∧
    (∀ (resolve : Track → Option String) (name : String) (desc : Option String)
        (ts : List Track), (∀ t ∈ ts, resolve t = none) →
        (appleAPICreatePlaylist resolve name desc ts).2.filter isAddEv = []
          ∧ (appleAPICreatePlaylist resolve name desc ts).1.1 = 0) ∧
    (∀ (resolve : Track → Option String) (name : String) (desc : Option String)
        (ts : List Track), (∀ t ∈ ts, resolve t = none) →
        (spotifyCreatePlaylist resolve name desc ts).2.filter isAddEv = []
          ∧ (spotifyCreatePlaylist resolve name desc ts).1.1 = 0) ∧
    (∀ (step : Track → ScriptResult) (name : String) (ts : List Track),
        (∀ t ∈ ts, step t ≠ ScriptResult.ok) →
        (appleScriptCreatePlaylist step name ts).2.filter isAddEv = []
          ∧ (appleScriptCreatePlaylist step name ts).1.1 = 0) := by
  refine ⟨fun _ _ _ _ => ⟨_, rfl⟩, fun _ _ _ _ => ⟨_, rfl⟩,
    fun _ _ _ => ⟨_, rfl⟩, ?_, ?_, ?_⟩
  · intro resolve name desc ts h
    have hm := matchTracks_all_none resolve ts h
    simp [appleAPICreatePlaylist, hm, isAddEv, List.filter_map]
  · intro resolve name desc ts h
    have hm := matchTracks_all_none resolve ts h
    simp [spotifyCreatePlaylist, hm, isAddEv, List.filter_map, batches_nil]
  · intro step name ts h
    have ha := appleScriptCreateAux_all_fail step ts.length ts 0 h
    simp [appleScriptCreatePlaylist, isAddEv, ha.1, ha.2]

/-- C8 witness: a one-track playlist whose only track does not match is
still created, with zero add calls. -/
theorem C8_create_amended_witness :
    (∀ t ∈ [tW], resolveNoneW t = none) ∧
    (appleAPICreatePlaylist resolveNoneW "p" (some "d") [tW]).2.filter isAddEv = []
      ∧ (appleAPICreatePlaylist resolveNoneW "p" (some "d") [tW]).1.1 = 0 := by
  have h : ∀ t ∈ [tW], resolveNoneW t = none := by intro t _; rfl
  have := C8_create_amended.2.2.2.1 resolveNoneW "p" (some "d") [tW] h
  exact ⟨h, this.1, this.2⟩

/-- C7 counterexample: the SpotifyClient reader follows the response's
next cursor rather than the short-page rule.  For a 100-item collection
read with the requested page size 50 (an exact multiple), the service
answers with two full pages, the second carrying no next cursor: the
client issues exactly 2 requests and stops after a page whose size
equals the requested page size, with no extra request answered by an
empty page — the claim demands 100 / 50 + 1 = 3 requests, the last
returning an empty page. -/
theorem C7_counterexample :
    (spotifyPaginate spotifyPagesW).2 = 2 ∧
    (spotifyPaginate spotifyPagesW).1.length = 100 ∧
    spotifyPagesW.map (fun p => p.1.length) = [50, 50] ∧
    (∀ p ∈ spotifyPagesW, p.1 ≠ []) ∧
    100 % 50 = 0 ∧
    (spotifyPaginate spotifyPagesW).2 ≠ 100 / 50 + 1 := by
  refine ⟨by decide, by decide, by decide, ?_, by decide, by decide⟩
  intro p hp
  simp [spotifyPagesW] at hp
  rcases hp with h | h <;> rw [h] <;> decide

/-- C7 amended: the offset-paginated Apple Music reader drains the full
collection and keeps requesting while each page is full, so for a
collection whose size is an exact multiple of the page size it issues
exactly one extra request answered by an empty page; the Spotify reader
instead stops as soon as a response carries no next cursor, regardless
of that page's size, issuing no extra request. -/
theorem C7_pagination_amended :
    (∀ (k : ℕ) (coll : List ℕ), (applePaginate k coll).1 = coll) ∧
    (∀ (k : ℕ) (coll : List ℕ), coll.length % (k + 1) = 0 →
        (applePaginate k coll).2 = coll.length / (k + 1) + 1) ∧
    (∀ (page : List ℕ) (rest : List (List ℕ × Bool)),
        spotifyPaginate ((page, false) :: rest) = (page, 1)) := by
  refine ⟨?_, ?_, fun _ _ => rfl⟩
  · intro k coll
    exact applePaginateGo_collects k coll.length coll (Nat.le_refl _)
  · intro k coll hmod
    exact applePaginateGo_requests k coll.length coll (Nat.le_refl _) hmod

/-- C7 witness: a 200-item collection read with page size 100 costs
three requests, the last answered by an empty page. -/
theorem C7_pagination_amended_witness :
    (List.replicate 200 (0 : ℕ)).length % (99 + 1) = 0 ∧
    (applePaginate 99 (List.replicate 200 (0 : ℕ))).2
      = (List.replicate 200 (0 : ℕ)).length / (99 + 1) + 1 ∧
    (applePaginate 99 (List.replicate 200 (0 : ℕ))).2 = 3 :=
  ⟨by decide, C7_pagination_amended.2.1 99 (List.replicate 200 0) (by decide),
    by decide⟩

/-- C9 counterexample: for the playlist "Road Trip" of 150 tracks, all
matching, the cited Spotify write adapter does issue two batched add
calls of 100 and 50 identifiers — but it accepts no progress callback,
so the progress callback ticks 0 times, not 150. -/
theorem C9_counterexample :
    (∀ t ∈ tracks150, (resolveAllW t).isSome) ∧
    tracks150.length = 150 ∧
    batchSizes (spotifyCreatePlaylist resolveAllW "Road Trip" none tracks150).2
      = [100, 50] ∧
    tickCount (spotifyCreatePlaylist resolveAllW "Road Trip" none tracks150).2
      = 0 ∧
    (0 : ℕ) ≠ 150 := by
  have hall : ∀ t ∈ tracks150, (resolveAllW t).isSome := fun t _ => rfl
  have hm := (matchTracks_all_some resolveAllW tracks150 hall).1
  have hs := spotifyCreate_trace_sizes resolveAllW "Road Trip" none tracks150
  refine ⟨hall, rfl, ?_, hs.2, by decide⟩
  rw [hs.1, hm]
  decide

/-- C9 amended: for a playlist of 150 tracks all of which match, the
Spotify write adapter issues exactly two batched add calls carrying 100
and 50 identifiers; neither cited adapter accepts a progress callback,
so zero progress ticks are issued by the write call (the web-API Apple
Music adapter furthermore submits all 150 identifiers in one single
call rather than two). -/
theorem C9_batching_amended :
    (∀ (resolve : Track → Option String) (name : String) (desc : Option String)
        (ts : List Track),
        (∀ t ∈ ts, (resolve t).isSome) → ts.length = 150 →
          batchSizes (spotifyCreatePlaylist resolve name desc ts).2 = [100, 50]
            ∧ tickCount (spotifyCreatePlaylist resolve name desc ts).2 = 0) ∧
    (∀ (resolve : Track → Option String) (name : String) (desc : Option String)
        (ts : List Track),
        (∀ t ∈ ts, (resolve t).isSome) → ts.length = 150 →
          batchSizes (appleAPICreatePlaylist resolve name desc ts).2 = [150]
            ∧ tickCount (appleAPICreatePlaylist resolve name desc ts).2 = 0) := by
  constructor
  · intro resolve name desc ts hall hlen
    have hm := (matchTracks_all_some resolve ts hall).1
    have hs := spotifyCreate_trace_sizes resolve name desc ts
    refine ⟨?_, hs.2⟩
    rw [hs.1, hm, hlen]
    decide
  · intro resolve name desc ts hall hlen
    have hm := (matchTracks_all_some resolve ts hall).1
    have hs := appleAPICreate_trace_sizes resolve name desc ts
    have hne : (matchTracks resolve ts).1.isEmpty = false := by
      cases hmt : (matchTracks resolve ts).1 with
      | nil => rw [hmt] at hm; rw [hlen] at hm; cases hm
      | cons a l => rfl
    refine ⟨?_, hs.2⟩
    rw [hs.1, hne, hm, hlen]
    simp

/-- C9 witness: the concrete 150-track playlist. -/
theorem C9_batching_amended_witness :
    tracks150.length = 150 ∧
    batchSizes (spotifyCreatePlaylist resolveAllW "Road Trip" (some "fun") tracks150).2
      = [100, 50] ∧
    tickCount (spotifyCreatePlaylist resolveAllW "Road Trip" (some "fun") tracks150).2
      = 0 := by
  have h := C9_batching_amended.1 resolveAllW "Road Trip" (some "fun") tracks150
    (fun t _ => rfl) rfl
  exact ⟨rfl, h.1, h.2⟩

/-- C10: with dry_run set, every TransferEngine operation returns right
after reading a non-empty source collection, issuing no destination
write call, so the destination is unchanged. -/
theorem C10_dry_run :
    ∀ (tracks : List Track) (pls : List Playlist) (albums : List Album),
      tracks ≠ [] → pls ≠ [] → albums ≠ [] →
        transferLikedSongs true tracks = [EngineEv.readLiked] ∧
        transferPlaylists true pls = [EngineEv.readPlaylists] ∧
        transferAlbums true albums = [EngineEv.readAlbums] := by
  intro tracks pls albums h1 h2 h3
  refine ⟨?_, ?_, ?_⟩
  · cases tracks with
    | nil => exact absurd rfl h1
    | cons a l => simp [transferLikedSongs]
  · cases pls with
    | nil => exact absurd rfl h2
    | cons a l => simp [transferPlaylists]
  · cases albums with
    | nil => exact absurd rfl h3
    | cons a l => simp [transferAlbums]

/-- C10 witness: concrete non-empty sources under dry_run. -/
theorem C10_dry_run_witness :
    ([tW] : List Track) ≠ [] ∧
    transferLikedSongs true [tW] = [EngineEv.readLiked] ∧
    transferPlaylists true [plW] = [EngineEv.readPlaylists] ∧
    transferAlbums true [albW] = [EngineEv.readAlbums] := by
  have h := C10_dry_run [tW] [plW] [albW] (by simp) (by simp) (by simp)
  exact ⟨by simp, h.1, h.2.1, h.2.2⟩

/-! Helper lemmas for the progress-trace model. -/

/-- Division of rationals by a nonnegative denominator is monotone in
the numerator. -/
theorem div_le_div_right_nonneg {a b c : ℚ} (h : a ≤ b) (hc : 0 ≤ c) :
    a / c ≤ b / c := by
  rcases eq_or_lt_of_le hc with rfl | hpos
  · simp
  · exact (div_le_div_iff_of_pos_right hpos).mpr h

/-- The clamp of _set_progress is monotone. -/
theorem clamp01_mono {q r : ℚ} (h : q ≤ r) : clamp01 q ≤ clamp01 r :=
  max_le_max le_rfl (min_le_min le_rfl h)

/-- Every clamped report is nonnegative. -/
theorem clamp01_nonneg (q : ℚ) : 0 ≤ clamp01 q := le_max_left _ _

/-- Every clamped report is at most one. -/
theorem clamp01_le_one (q : ℚ) : clamp01 q ≤ 1 :=
  max_le (by norm_num) (min_le_left _ _)

/-- The clamp fixes one. -/
theorem clamp01_one : clamp01 1 = 1 := by norm_num [clamp01]

/-- The clamp fixes any value already in the unit interval. -/
theorem clamp01_of_mem {q : ℚ} (h0 : 0 ≤ q) (h1 : q ≤ 1) : clamp01 q = q := by
  rw [clamp01, min_eq_right h1, max_eq_right h0]

/-- The per-item fraction of a non-playlist task is at least the
fraction at the start of that task. -/
theorem codeSimpleFrac_lb (ti T done total : ℕ) :
    (ti : ℚ) / T ≤ codeSimpleFrac ti T done total := by
  unfold codeSimpleFrac
  have h : (0 : ℚ) ≤ (done : ℚ) / ((max total 1 : ℕ) : ℚ) / T := by positivity
  linarith

/-- The per-item fraction of a non-playlist task never exceeds the
end-of-task report. -/
theorem codeSimpleFrac_ub (ti T done total : ℕ) (hdt : done ≤ total) :
    codeSimpleFrac ti T done total ≤ ((ti + 1 : ℕ) : ℚ) / T := by
  unfold codeSimpleFrac
  have h1 : (done : ℚ) / ((max total 1 : ℕ) : ℚ) ≤ 1 := by
    apply div_le_one_of_le₀
    · exact_mod_cast Nat.le_trans hdt (Nat.le_max_left total 1)
    · positivity
  have h2 : (done : ℚ) / ((max total 1 : ℕ) : ℚ) / T ≤ 1 / T :=
    div_le_div_right_nonneg h1 (by positivity)
  have h3 : (ti : ℚ) / T + 1 / T = ((ti + 1 : ℕ) : ℚ) / T := by
    push_cast
    rw [div_add_div_same]
  linarith

/-- The per-item fraction of a non-playlist task grows with the number
of processed items. -/
theorem codeSimpleFrac_mono (ti T total : ℕ) {d1 d2 : ℕ} (h : d1 ≤ d2) :
    codeSimpleFrac ti T d1 total ≤ codeSimpleFrac ti T d2 total := by
  unfold codeSimpleFrac
  have h1 : (d1 : ℚ) ≤ (d2 : ℚ) := by exact_mod_cast h
  have h2 : (d1 : ℚ) / ((max total 1 : ℕ) : ℚ) / T
      ≤ (d2 : ℚ) / ((max total 1 : ℕ) : ℚ) / T :=
    div_le_div_right_nonneg (div_le_div_right_nonneg h1 (by positivity))
      (by positivity)
  linarith

/-- The per-item fraction within playlist pi is at least the fraction
at the start of that playlist. -/
theorem codePlFrac_lb (ti T pi plCount done total : ℕ) :
    (ti : ℚ) / T + (pi : ℚ) / plCount / T
      ≤ codePlFrac ti T pi plCount done total := by
  unfold codePlFrac
  have h : (0 : ℚ) ≤ (done : ℚ) / ((max total 1 : ℕ) : ℚ) / plCount / T := by
    positivity
  linarith

/-- The per-item fraction within playlist pi never exceeds the fraction
at the start of playlist pi + 1. -/
theorem codePlFrac_ub (ti T pi plCount done total : ℕ) (hdt : done ≤ total) :
    codePlFrac ti T pi plCount done total
      ≤ (ti : ℚ) / T + ((pi + 1 : ℕ) : ℚ) / plCount / T := by
  unfold codePlFrac
  have h1 : (done : ℚ) / ((max total 1 : ℕ) : ℚ) ≤ 1 := by
    apply div_le_one_of_le₀
    · exact_mod_cast Nat.le_trans hdt (Nat.le_max_left total 1)
    · positivity
  have h2 : (done : ℚ) / ((max total 1 : ℕ) : ℚ) / plCount / T
      ≤ 1 / plCount / T :=
    div_le_div_right_nonneg (div_le_div_right_nonneg h1 (by positivity))
      (by positivity)
  have h3 : (pi : ℚ) / plCount / T + 1 / plCount / T
      = ((pi + 1 : ℕ) : ℚ) / plCount / T := by
    push_cast
    rw [div_add_div_same, div_add_div_same]
  linarith

/-- The start-of-playlist fraction grows with the playlist index. -/
theorem plStart_mono (ti T plCount : ℕ) {p1 p2 : ℕ} (h : p1 ≤ p2) :
    (ti : ℚ) / T + (p1 : ℚ) / plCount / T
      ≤ (ti : ℚ) / T + (p2 : ℚ) / plCount / T := by
  have h1 : (p1 : ℚ) ≤ (p2 : ℚ) := by exact_mod_cast h
  have h2 : (p1 : ℚ) / plCount / T ≤ (p2 : ℚ) / plCount / T :=
    div_le_div_right_nonneg (div_le_div_right_nonneg h1 (by positivity))
      (by positivity)
  linarith

/-- The start-of-playlist fraction stays below the end-of-task report
while the index is within the playlist count. -/
theorem plStart_le_task_end (ti T plCount : ℕ) {p : ℕ} (h : p ≤ plCount) :
    (ti : ℚ) / T + (p : ℚ) / plCount / T ≤ ((ti + 1 : ℕ) : ℚ) / T := by
  have h1 : (p : ℚ) / plCount ≤ 1 := by
    rcases Nat.eq_zero_or_pos plCount with hz | hpos
    · subst hz
      have hp : p = 0 := Nat.le_zero.mp h
      subst hp
      norm_num
    · apply div_le_one_of_le₀
      · exact_mod_cast h
      · positivity
  have h2 : (p : ℚ) / plCount / T ≤ 1 / T :=
    div_le_div_right_nonneg h1 (by positivity)
  have h3 : (ti : ℚ) / T + 1 / T = ((ti + 1 : ℕ) : ℚ) / T := by
    push_cast
    rw [div_add_div_same]
  linarith

/-- The per-item fraction within playlist pi grows with the number of
processed tracks. -/
theorem codePlFrac_mono (ti T pi plCount total : ℕ) {d1 d2 : ℕ} (h : d1 ≤ d2) :
    codePlFrac ti T pi plCount d1 total ≤ codePlFrac ti T pi plCount d2 total := by
  unfold codePlFrac
  have h1 : (d1 : ℚ) ≤ (d2 : ℚ) := by exact_mod_cast h
  have h2 : (d1 : ℚ) / ((max total 1 : ℕ) : ℚ) / plCount / T
      ≤ (d2 : ℚ) / ((max total 1 : ℕ) : ℚ) / plCount / T :=
    div_le_div_right_nonneg
      (div_le_div_right_nonneg (div_le_div_right_nonneg h1 (by positivity))
        (by positivity))
      (by positivity)
  linarith

/-- Every tick of the playlists task from playlist pi on is at least
the fraction at the start of playlist pi. -/
theorem plTicksAux_lb (T ti plCount : ℕ) :
    ∀ (l : List ℕ) (pi : ℕ) (x : ℚ), x ∈ plTicksAux T ti plCount pi l →
      (ti : ℚ) / T + (pi : ℚ) / plCount / T ≤ x := by
  intro l
  induction l with
  | nil =>
    intro pi x hx
    simp [plTicksAux] at hx
  | cons m rest ih =>
    intro pi x hx
    rw [plTicksAux, List.mem_append] at hx
    rcases hx with hx | hx
    · obtain ⟨d, _, rfl⟩ := List.mem_map.mp hx
      exact codePlFrac_lb ti T pi plCount (d + 1) m
    · have := ih (pi + 1) x hx
      have hstep := plStart_mono ti T plCount (Nat.le_succ pi)
      linarith

/-- Every tick of the playlists task stays below the end-of-task
report. -/
theorem plTicksAux_ub (T ti plCount : ℕ) :
    ∀ (l : List ℕ) (pi : ℕ) (x : ℚ), pi + l.length ≤ plCount →
      x ∈ plTicksAux T ti plCount pi l → x ≤ ((ti + 1 : ℕ) : ℚ) / T := by
  intro l
  induction l with
  | nil =>
    intro pi x _ hx
    simp [plTicksAux] at hx
  | cons m rest ih =>
    intro pi x hl hx
    rw [plTicksAux, List.mem_append] at hx
    rcases hx with hx | hx
    · obtain ⟨d, hd, rfl⟩ := List.mem_map.mp hx
      have h1 := codePlFrac_ub ti T pi plCount (d + 1) m
        (List.mem_range.mp hd)
      have h2 := plStart_le_task_end ti T plCount
        (show pi + 1 ≤ plCount by simp at hl; omega)
      linarith
    · exact ih (pi + 1) x (by simp at hl; omega) hx

/-- The ticks of the playlists task are reported in nondecreasing
order. -/
theorem plTicksAux_pairwise (T ti plCount : ℕ) :
    ∀ (l : List ℕ) (pi : ℕ), pi + l.length ≤ plCount →
      (plTicksAux T ti plCount pi l).Pairwise (· ≤ ·) := by
  intro l
  induction l with
  | nil =>
    intro pi _
    simp [plTicksAux]
  | cons m rest ih =>
    intro pi hl
    rw [plTicksAux]
    refine List.pairwise_append.mpr ⟨?_, ih (pi + 1) (by simp at hl; omega), ?_⟩
    · refine List.Pairwise.map _ (fun a b h => h) ?_
      exact (List.pairwise_lt_range m).imp
        (fun h => codePlFrac_mono ti T pi plCount m (by omega))
    · intro a ha b hb
      obtain ⟨d, hd, rfl⟩ := List.mem_map.mp ha
      have h1 := codePlFrac_ub ti T pi plCount (d + 1) m (List.mem_range.mp hd)
      have h2 := plTicksAux_lb T ti plCount rest (pi + 1) b hb
      push_cast at h1 h2 ⊢
      linarith

/-- Every tick of a non-playlist task is at least the fraction at the
start of that task. -/
theorem simpleTicks_lb (T ti total : ℕ) (x : ℚ) (hx : x ∈ simpleTicks T ti total) :
    (ti : ℚ) / T ≤ x := by
  obtain ⟨d, _, rfl⟩ := List.mem_map.mp hx
  exact codeSimpleFrac_lb ti T (d + 1) total

/-- Every tick of a non-playlist task stays below the end-of-task
report. -/
theorem simpleTicks_ub (T ti total : ℕ) (x : ℚ) (hx : x ∈ simpleTicks T ti total) :
    x ≤ ((ti + 1 : ℕ) : ℚ) / T := by
  obtain ⟨d, hd, rfl⟩ := List.mem_map.mp hx
  exact codeSimpleFrac_ub ti T (d + 1) total (List.mem_range.mp hd)

/-- The ticks of a non-playlist task are reported in nondecreasing
order. -/
theorem simpleTicks_pairwise (T ti total : ℕ) :
    (simpleTicks T ti total).Pairwise (· ≤ ·) := by
  refine List.Pairwise.map _ (fun a b h => h) ?_
  exact (List.pairwise_lt_range total).imp
    (fun h => codeSimpleFrac_mono ti T total (by omega))

/-- Every tick of a task is at least the fraction at the start of that
task. -/
theorem taskTicks_lb (T ti : ℕ) (s : TaskShape) (x : ℚ)
    (hx : x ∈ taskTicks T ti s) : (ti : ℚ) / T ≤ x := by
  cases s with
  | simple total => exact simpleTicks_lb T ti total x hx
  | playlists sizes =>
    have h := plTicksAux_lb T ti sizes.length sizes 0 x hx
    simpa using h

/-- Every tick of a task stays below the end-of-task report. -/
theorem taskTicks_ub (T ti : ℕ) (s : TaskShape) (x : ℚ)
    (hx : x ∈ taskTicks T ti s) : x ≤ ((ti + 1 : ℕ) : ℚ) / T := by
  cases s with
  | simple total => exact simpleTicks_ub T ti total x hx
  | playlists sizes =>
    exact plTicksAux_ub T ti sizes.length sizes 0 x (by omega) hx

/-- The ticks of one task are reported in nondecreasing order. -/
theorem taskTicks_pairwise (T ti : ℕ) (s : TaskShape) :
    (taskTicks T ti s).Pairwise (· ≤ ·) := by
  cases s with
  | simple total => exact simpleTicks_pairwise T ti total
  | playlists sizes =>
    exact plTicksAux_pairwise T ti sizes.length sizes 0 (by omega)

/-- Every raw report issued from task ti on is at least the fraction at
the start of task ti. -/
theorem rawTraceAux_lb (T : ℕ) :
    ∀ (rest : List TaskShape) (ti : ℕ) (x : ℚ), x ∈ rawTraceAux T ti rest →
      (ti : ℚ) / T ≤ x := by
  intro rest
  induction rest with
  | nil =>
    intro ti x hx
    simp [rawTraceAux] at hx
  | cons s rest ih =>
    intro ti x hx
    rw [rawTraceAux, List.mem_append] at hx
    have hstep : (ti : ℚ) / T ≤ ((ti + 1 : ℕ) : ℚ) / T :=
      div_le_div_right_nonneg (by exact_mod_cast Nat.le_succ ti) (by positivity)
    rcases hx with hx | hx
    · exact taskTicks_lb T ti s x hx
    · rcases List.mem_cons.mp hx with rfl | hx
      · exact hstep
      · have := ih (ti + 1) x hx
        push_cast at this hstep ⊢
        linarith

/-- Every raw report issued from task ti on is at most one, provided
the remaining task count fits the total. -/
theorem rawTraceAux_ub (T : ℕ) :
    ∀ (rest : List TaskShape) (ti : ℕ) (x : ℚ), ti + rest.length ≤ T →
      x ∈ rawTraceAux T ti rest → x ≤ 1 := by
  intro rest
  induction rest with
  | nil =>
    intro ti x _ hx
    simp [rawTraceAux] at hx
  | cons s rest ih =>
    intro ti x hl hx
    rw [rawTraceAux, List.mem_append] at hx
    have hend : ((ti + 1 : ℕ) : ℚ) / T ≤ 1 := by
      apply div_le_one_of_le₀
      · exact_mod_cast (by simp at hl; omega : ti + 1 ≤ T)
      · positivity
    rcases hx with hx | hx
    · exact le_trans (taskTicks_ub T ti s x hx) hend
    · rcases List.mem_cons.mp hx with rfl | hx
      · exact hend
      · exact ih (ti + 1) x (by simp at hl; omega) hx

/-- The raw reports issued from task ti on are nondecreasing. -/
theorem rawTraceAux_pairwise (T : ℕ) :
    ∀ (rest : List TaskShape) (ti : ℕ),
      (rawTraceAux T ti rest).Pairwise (· ≤ ·) := by
  intro rest
  induction rest with
  | nil =>
    intro ti
    simp [rawTraceAux]
  | cons s rest ih =>
    intro ti
    rw [rawTraceAux]
    refine List.pairwise_append.mpr ⟨taskTicks_pairwise T ti s, ?_, ?_⟩
    · refine List.Pairwise.cons ?_ (ih (ti + 1))
      intro b hb
      exact rawTraceAux_lb T rest (ti + 1) b hb
    · intro a ha b hb
      have h1 := taskTicks_ub T ti s a ha
      rcases List.mem_cons.mp hb with rfl | hb
      · exact h1
      · exact le_trans h1 (rawTraceAux_lb T rest (ti + 1) b hb)

/-- The raw report list of a nonempty run ends with the end-of-task
report of the last task, (task count) / total_tasks. -/
theorem rawTraceAux_concat (T : ℕ) :
    ∀ (rest : List TaskShape) (ti : ℕ), rest ≠ [] →
      ∃ l, rawTraceAux T ti rest
        = l ++ [((ti + rest.length : ℕ) : ℚ) / T] := by
  intro rest
  induction rest with
  | nil => intro ti h; exact absurd rfl h
  | cons s rest ih =>
    intro ti _
    cases rest with
    | nil =>
      refine ⟨taskTicks T ti s, ?_⟩
      simp [rawTraceAux]
    | cons s' rest' =>
      obtain ⟨l', hl'⟩ := ih (ti + 1) (by simp)
      refine ⟨taskTicks T ti s ++ ((ti + 1 : ℕ) : ℚ) / T :: l', ?_⟩
      rw [rawTraceAux, hl']
      have harith : ti + 1 + (s' :: rest').length = ti + (s :: s' :: rest').length := by
        simp
        omega
      rw [harith]
      simp

/-- C5 counterexample: for a run with one selected one-item task the
reported sequence is 0, 1, 1, 1 — monotone, clamped and ending at 1.0,
but 1.0 is reported three times (last per-item tick, end-of-task report,
final report), not issued once. -/
theorem C5_counterexample :
    runTrace [TaskShape.simple 1] = [0, 1, 1, 1] ∧
    (runTrace [TaskShape.simple 1]).count 1 = 3 ∧ (3 : ℕ) ≠ 1 := by
  have h : runTrace [TaskShape.simple 1] = [0, 1, 1, 1] := by
    norm_num [runTrace, rawTraceAux, taskTicks, simpleTicks, codeSimpleFrac,
      clamp01, List.range_succ]
  refine ⟨h, ?_, by decide⟩
  rw [h]
  decide

/-- C5 amended: for one run the reported sequence is non-decreasing,
every reported value lies in the unit interval after clamping, and the
final report at full completion is exactly 1.0 — however, whenever at
least one task is selected, 1.0 is reported more than once at
completion (the end-of-task report of the last task already equals 1.0
before the final report). -/
theorem C5_progress_amended :
    ∀ tasks : List TaskShape,
      (runTrace tasks).Chain' (· ≤ ·) ∧
      (∀ q ∈ runTrace tasks, 0 ≤ q ∧ q ≤ 1) ∧
      (runTrace tasks).getLast? = some 1 ∧
      (tasks ≠ [] → ∃ l, runTrace tasks = l ++ [1, 1]) := by
  intro tasks
  refine ⟨?_, ?_, ?_, ?_⟩
  · apply List.chain'_iff_pairwise.mpr
    unfold runTrace
    refine List.Pairwise.map _ (fun a b h => clamp01_mono h) ?_
    refine List.Pairwise.cons ?_ ?_
    · intro y hy
      rcases List.mem_append.mp hy with hy | hy
      · have := rawTraceAux_lb tasks.length tasks 0 y hy
        simpa using this
      · rw [List.mem_singleton.mp hy]
        norm_num
    · refine List.pairwise_append.mpr
        ⟨rawTraceAux_pairwise tasks.length tasks 0, by simp, ?_⟩
      intro a ha b hb
      rw [List.mem_singleton.mp hb]
      exact rawTraceAux_ub tasks.length tasks 0 a (by omega) ha
  · intro q hq
    unfold runTrace at hq
    obtain ⟨x, _, rfl⟩ := List.mem_map.mp hq
    exact ⟨clamp01_nonneg x, clamp01_le_one x⟩
  · unfold runTrace
    simp only [List.map_cons, List.map_append, List.map_nil, clamp01_one]
    exact List.getLast?_concat
      (clamp01 0 :: List.map clamp01 (rawTraceAux tasks.length 0 tasks))
  · intro hne
    obtain ⟨l', hl'⟩ := rawTraceAux_concat tasks.length tasks 0 hne
    have hTpos : (0 : ℚ) < (tasks.length : ℚ) := by
      exact_mod_cast List.length_pos.mpr hne
    have hone : ((0 + tasks.length : ℕ) : ℚ) / (tasks.length : ℚ) = 1 := by
      rw [Nat.zero_add]
      exact div_self (ne_of_gt hTpos)
    refine ⟨((0 : ℚ) :: l').map clamp01, ?_⟩
    unfold runTrace
    rw [hl', hone]
    simp [List.append_assoc, clamp01_one]

/-- C5 witness: a nonempty run, with the doubled final 1.0. -/
theorem C5_progress_amended_witness :
    ([TaskShape.simple 1] : List TaskShape) ≠ [] ∧
    ∃ l, runTrace [TaskShape.simple 1] = l ++ [1, 1] :=
  ⟨by simp, (C5_progress_amended [TaskShape.simple 1]).2.2.2 (by simp)⟩

/-- C6: after each processed item (done at least 1 and at most the item
total, with the task and playlist indices in range), the clamped
fraction computed by the progress closures equals the spec formula
task_index / total_tasks + (intra_done / intra_total) / total_tasks,
and for the playlists task the nested formula (playlist_index /
playlist_count + track_done / track_total / playlist_count) weighted
the same way. -/
theorem C6_formula :
    ∀ (ti T pi plCount done total : ℕ),
      ti < T → pi < plCount → 1 ≤ done → done ≤ total →
        clamp01 (codeSimpleFrac ti T done total)
            = specSimpleFrac ti T done total ∧
        clamp01 (codePlFrac ti T pi plCount done total)
            = specPlFrac ti T pi plCount done total := by
  intro ti T pi plCount done total hti hpi h1 h2
  have htot : max total 1 = total := Nat.max_eq_left (Nat.le_trans h1 h2)
  have hend : ((ti + 1 : ℕ) : ℚ) / T ≤ 1 := by
    apply div_le_one_of_le₀
    · exact_mod_cast hti
    · positivity
  constructor
  · have h0 : 0 ≤ codeSimpleFrac ti T done total := by
      unfold codeSimpleFrac
      positivity
    have hub := codeSimpleFrac_ub ti T done total h2
    rw [clamp01_of_mem h0 (le_trans hub hend)]
    unfold codeSimpleFrac specSimpleFrac
    rw [htot]
  · have h0 : 0 ≤ codePlFrac ti T pi plCount done total := by
      unfold codePlFrac
      positivity
    have hub := codePlFrac_ub ti T pi plCount done total h2
    have hub2 := plStart_le_task_end ti T plCount
      (show pi + 1 ≤ plCount from hpi)
    rw [clamp01_of_mem h0 (le_trans hub (le_trans hub2 hend))]
    unfold codePlFrac specPlFrac
    rw [htot]
    ring

/-- C6 witness: the first item of the only playlist of a two-task run. -/
theorem C6_formula_witness :
    (0 : ℕ) < 2 ∧ (0 : ℕ) < 1 ∧ (1 : ℕ) ≤ 1 ∧
    clamp01 (codeSimpleFrac 0 2 1 1) = specSimpleFrac 0 2 1 1 ∧
    clamp01 (codePlFrac 0 2 0 1 1 1) = specPlFrac 0 2 0 1 1 1 := by
  have h := C6_formula 0 2 0 1 1 1 (by decide) (by decide) (by decide) (by decide)
  exact ⟨by decide, by decide, by decide, h.1, h.2⟩

end MusicSync
